import Mathlib

/-!
Verification development for the portfolio-assistant agent orchestration core.

The definitions below are a shallow embedding of the Python source:
message/state-graph machinery from `src/services/ai/langgraph_agent_service.py`,
conversation-thread lifecycle from `src/services/conversation_thread_service.py`,
the per-request tool factory from `src/services/ai/tools/`, and the batch
price fetcher from `src/services/eod_market_data_tool.py`.
-/

/-! ## Messages and tool calls (langchain message model as used by the agent) -/

structure ToolCall where
  name : String
  args : String
deriving Repr, DecidableEq

/-- A message in the agent state: system / human / AI (with tool calls) / tool result. -/
inductive Msg where
  | system (content : String)
  | human (content : String)
  | ai (content : String) (toolCalls : List ToolCall)
  | tool (content : String)
deriving Repr, DecidableEq

/-- `isinstance(m, (AIMessage, ToolMessage))` from `call_model`. -/
def Msg.isAiOrTool : Msg → Bool
  | .ai _ _ => true
  | .tool _ => true
  | _ => false

/-- `hasattr(m, "tool_calls") and m.tool_calls` collapses to this list being nonempty:
only AI messages carry tool calls. -/
def Msg.toolCalls : Msg → List ToolCall
  | .ai _ tcs => tcs
  | _ => []

def Msg.isSystem : Msg → Bool
  | .system _ => true
  | _ => false

/-- The model response returned by `model_with_tools.invoke(messages)`: content plus
the tool-call decision.  A run is parametrised by an oracle
`List Msg → AiResponse` standing for the opaque model capability. -/
structure AiResponse where
  content : String
  toolCalls : List ToolCall
deriving Repr, DecidableEq

/-! ## `call_model` (langgraph_agent_service.py, `_create_agent_node`)

`is_first_message = not any(isinstance(m, (AIMessage, ToolMessage)) for m in messages)`;
if it holds, the system prompt is prepended to the list sent to the model.
Only the model response is appended to the persisted state. -/

def is_first_message (messages : List Msg) : Bool :=
  ! messages.any Msg.isAiOrTool

/-- The message list actually sent to the model by `call_model`. -/
def call_model_sent (systemPrompt : String) (messages : List Msg) : List Msg :=
  if is_first_message messages then Msg.system systemPrompt :: messages else messages

/-- `call_model`: send the (possibly prompt-prefixed) list to the model and append
the response to the state (the `MessagesState` reducer appends `{"messages": [response]}`). -/
def call_model (oracle : List Msg → AiResponse) (systemPrompt : String)
    (messages : List Msg) : List Msg :=
  let r := oracle (call_model_sent systemPrompt messages)
  messages ++ [Msg.ai r.content r.toolCalls]

/-! ## Routing and the state graph (`should_continue`, `_build_graph`) -/

/-- The two routing targets of the conditional edge out of the agent node. -/
inductive Route where
  | tools
  | finish
deriving Repr, DecidableEq

/-- `should_continue`: inspect `messages[-1]`; Python raises IndexError on an empty
list, modelled as `Except.error`. -/
def should_continue (messages : List Msg) : Except String Route :=
  match messages.getLast? with
  | none => .error "IndexError: list index out of range"
  | some last => if last.toolCalls ≠ [] then .ok .tools else .ok .finish

/-- Graph nodes: `agent` is the REASON node, `tools` the ACT node, `finished` END. -/
inductive Node where
  | reason
  | act
  | finished
deriving Repr, DecidableEq

/-- `ToolNode(tools)`: execute every tool call of the last message, appending one
tool-result message per call, in request order.  `exec` stands for dispatch to
the bound tool callables. -/
def tool_node (exec : ToolCall → String) (messages : List Msg) : List Msg :=
  let calls := match messages.getLast? with
    | some last => last.toolCalls
    | none => []
  messages ++ calls.map (fun tc => Msg.tool (exec tc))

structure RunCfg where
  node : Node
  messages : List Msg
deriving Repr, DecidableEq

/-- One step of the compiled graph: from the REASON node run `call_model` then the
conditional edge (`tools` ↦ ACT, `__end__` ↦ END); from ACT run the tool node and
take the unconditional edge back to REASON. -/
def step_cfg (oracle : List Msg → AiResponse) (exec : ToolCall → String)
    (systemPrompt : String) : RunCfg → Except String RunCfg
  | ⟨.reason, msgs⟩ =>
      let msgs' := call_model oracle systemPrompt msgs
      match should_continue msgs' with
      | .error e => .error e
      | .ok .tools => .ok ⟨.act, msgs'⟩
      | .ok .finish => .ok ⟨.finished, msgs'⟩
  | ⟨.act, msgs⟩ => .ok ⟨.reason, tool_node exec msgs⟩
  | ⟨.finished, msgs⟩ => .ok ⟨.finished, msgs⟩

/-- Totalised step used to build traces; reachable configurations never hit the
error case (the REASON step always appends a message before routing). -/
def step_cfg_total (oracle : List Msg → AiResponse) (exec : ToolCall → String)
    (systemPrompt : String) (cfg : RunCfg) : RunCfg :=
  match step_cfg oracle exec systemPrompt cfg with
  | .ok c => c
  | .error _ => cfg

/-- `_prepare_chat_context` builds `initial_state` with the single human message,
and `_build_graph` adds the edge START → agent: a run starts at REASON. -/
def initial_cfg (userMessage : String) : RunCfg :=
  ⟨.reason, [Msg.human userMessage]⟩

/-- The run trace: configuration after `n` graph steps. -/
def run_trace (oracle : List Msg → AiResponse) (exec : ToolCall → String)
    (systemPrompt : String) (userMessage : String) (n : Nat) : RunCfg :=
  (step_cfg_total oracle exec systemPrompt)^[n] (initial_cfg userMessage)

def count_system (messages : List Msg) : Nat :=
  (messages.filter Msg.isSystem).length

def contains_ai_or_tool (messages : List Msg) : Bool :=
  messages.any Msg.isAiOrTool

/-! ## Conversation thread service (conversation_thread_service.py)

Python datetimes are modelled with an absolute timeline in seconds plus an
awareness flag.  `datetime.now(timezone.utc)` is aware; `.replace(tzinfo=None)`
strips awareness; subtracting an aware and a naive datetime raises `TypeError`
in Python, modelled as `Except.error`. -/

structure PyDateTime where
  seconds : Int
  aware : Bool
deriving Repr, DecidableEq

/-- `datetime.now(timezone.utc)` at absolute time `t`. -/
def now_utc (t : Int) : PyDateTime := ⟨t, true⟩

/-- `d.replace(tzinfo=None)`. -/
def replace_tzinfo_none (d : PyDateTime) : PyDateTime := { d with aware := false }

/-- Python datetime subtraction: mixing offset-naive and offset-aware raises. -/
def py_datetime_sub (a b : PyDateTime) : Except String Int :=
  if a.aware = b.aware then .ok (a.seconds - b.seconds)
  else .error "TypeError: cannot subtract offset-naive and offset-aware datetimes"

/-- `INACTIVITY_THRESHOLD = timedelta(minutes=30)`, in seconds. -/
def INACTIVITY_THRESHOLD : Int := 30 * 60

structure ConversationThread where
  id : Nat
  account_id : Nat
  thread_title : String
  last_activity : PyDateTime
  is_active : Bool
  created_at : PyDateTime
  updated_at : PyDateTime
deriving Repr, DecidableEq

/-- The durable store backing the service: the thread rows plus the id sequence. -/
structure ThreadStore where
  threads : List ConversationThread
  nextId : Nat
deriving Repr, DecidableEq

/-- `_get_thread_by_id`: select where id = thread_id and account_id = account_id. -/
def get_thread_by_id (store : ThreadStore) (threadId accountId : Nat) :
    Option ConversationThread :=
  store.threads.find? (fun t => t.id = threadId && t.account_id = accountId)

/-- `_get_most_recent_active_thread`: select where account and active, order by
last_activity desc, limit 1. -/
def get_most_recent_active_thread (store : ThreadStore) (accountId : Nat) :
    Option ConversationThread :=
  (store.threads.filter (fun t => t.account_id = accountId && t.is_active)).foldl
    (fun best t =>
      match best with
      | none => some t
      | some b => if t.last_activity.seconds > b.last_activity.seconds then some t else some b)
    none

/-- Replace a thread row (matched by id) in the store. -/
def store_update (store : ThreadStore) (t : ConversationThread) : ThreadStore :=
  { store with threads := store.threads.map (fun u => if u.id = t.id then t else u) }

/-- `_update_last_activity`: bump `last_activity` and `updated_at` to now, commit. -/
def update_last_activity (store : ThreadStore) (t : ConversationThread) (t0 : Int) :
    ConversationThread × ThreadStore :=
  let t' := { t with last_activity := now_utc t0, updated_at := now_utc t0 }
  (t', store_update store t')

/-- `_deactivate_thread`: clear `is_active`, bump `updated_at`, commit. -/
def deactivate_thread (store : ThreadStore) (t : ConversationThread) (t0 : Int) :
    ThreadStore :=
  store_update store { t with is_active := false, updated_at := now_utc t0 }

/-- `_create_new_thread`: insert a fresh active thread stamped with now. -/
def create_new_thread (store : ThreadStore) (accountId : Nat) (t0 : Int) :
    ConversationThread × ThreadStore :=
  let th : ConversationThread :=
    { id := store.nextId
      account_id := accountId
      thread_title := "Conversation"
      last_activity := now_utc t0
      is_active := true
      created_at := now_utc t0
      updated_at := now_utc t0 }
  (th, { threads := store.threads ++ [th], nextId := store.nextId + 1 })

/-- The fallback of `get_or_create_active_thread` when no valid `thread_id` was
supplied (or the by-id lookup failed): reuse the most recent active thread if
young enough, else deactivate it and create a new one.  The idle computation is
`datetime.now(timezone.utc) - active_thread.last_activity.replace(tzinfo=None)`,
an aware-minus-naive subtraction. -/
def get_or_create_fallback (store : ThreadStore) (accountId : Nat) (t0 : Int) :
    Except String (ConversationThread × ThreadStore) :=
  match get_most_recent_active_thread store accountId with
  | some active =>
      match py_datetime_sub (now_utc t0) (replace_tzinfo_none active.last_activity) with
      | .error e => .error e
      | .ok idle =>
          if idle > INACTIVITY_THRESHOLD then
            .ok (create_new_thread (deactivate_thread store active t0) accountId t0)
          else
            .ok (update_last_activity store active t0)
  | none => .ok (create_new_thread store accountId t0)

/-- `get_or_create_active_thread(account_id, thread_id)`.  `if thread_id:` is a
Python truthiness test, so `thread_id = 0` skips the by-id lookup. -/
def get_or_create_active_thread (store : ThreadStore) (accountId : Nat)
    (threadId : Option Nat) (t0 : Int) :
    Except String (ConversationThread × ThreadStore) :=
  match threadId with
  | some tid =>
      if tid ≠ 0 then
        match get_thread_by_id store tid accountId with
        | some t =>
            if t.is_active then .ok (update_last_activity store t t0)
            else get_or_create_fallback store accountId t0
        | none => get_or_create_fallback store accountId t0
      else get_or_create_fallback store accountId t0
  | none => get_or_create_fallback store accountId t0

/-! ## Streaming / collection event bridge
(`_stream_graph_events`, `_collect_graph_response`, `stream_chat`, `run_chat`) -/

/-- The graph's internal event sequence consumed by both bridge modes:
`on_chat_model_stream` token chunks, `on_tool_start`, `on_tool_end`. -/
inductive RunEvent where
  | tokenChunk (content : String)
  | toolStart (name : String) (input : String)
  | toolEnd (name : String) (output : String)
deriving Repr, DecidableEq

/-- `tool_status_messages`: static name → status-line table of `_stream_graph_events`. -/
def tool_status_message (name : String) : Option String :=
  if name = "get_portfolio_holdings" then some "Fetching your portfolio holdings...\n\n"
  else if name = "analyze_portfolio_performance" then some "Analyzing portfolio performance...\n\n"
  else if name = "compare_portfolio_performance" then some "Comparing portfolio performance...\n\n"
  else if name = "get_market_context" then some "Getting market context...\n\n"
  else if name = "get_market_sentiment" then some "Analyzing market sentiment...\n\n"
  else if name = "get_real_time_prices" then some "Fetching real-time stock prices...\n\n"
  else none

/-- `tool_completion_messages` table of `_stream_graph_events`. -/
def tool_completion_message (name : String) : Option String :=
  if name = "get_portfolio_holdings" then some "Portfolio data retrieved\n\n"
  else if name = "analyze_portfolio_performance" then some "Analysis complete\n\n"
  else if name = "compare_portfolio_performance" then some "Comparison complete\n\n"
  else if name = "get_market_context" then some "Market context retrieved\n\n"
  else if name = "get_market_sentiment" then some "Sentiment analysis complete\n\n"
  else if name = "get_real_time_prices" then some "Prices retrieved\n\n"
  else none

/-- `_stream_graph_events`, with each emitted chunk tagged by whether it is a tool
status line (`true`) or a forwarded token delta (`false`).  A token event with
empty (falsy) content yields nothing; an unknown tool name yields no status line. -/
def stream_graph_events_tagged : List RunEvent → List (Bool × String)
  | [] => []
  | e :: rest =>
      (match e with
       | .tokenChunk c => if c ≠ "" then [(false, c)] else []
       | .toolStart n _ =>
           match tool_status_message n with
           | some m => [(true, m)]
           | none => []
       | .toolEnd n _ =>
           match tool_completion_message n with
           | some m => [(true, m)]
           | none => []) ++ stream_graph_events_tagged rest

/-- The chunk sequence actually yielded by `_stream_graph_events`. -/
def stream_graph_events (events : List RunEvent) : List String :=
  (stream_graph_events_tagged events).map Prod.snd

/-- One `{name, input, output}` record of `_collect_graph_response`;
`output` is `None` until the matching tool-end event arrives. -/
structure ToolEventRec where
  name : String
  input : String
  output : Option String
deriving Repr, DecidableEq

/-- Helper for the `on_tool_end` handler: fill the first record (scanning from the
left) whose name matches and whose output is still `None`. -/
def fill_first_unmatched (name out : String) : List ToolEventRec → List ToolEventRec
  | [] => []
  | r :: rs =>
      if r.name = name ∧ r.output = none then { r with output := some out } :: rs
      else r :: fill_first_unmatched name out rs

/-- `for te in reversed(tool_events): if te.name == name and te.output is None:
te.output = output; break` — fill the most recently started unmatched record. -/
def update_last_unmatched (name out : String) (recs : List ToolEventRec) :
    List ToolEventRec :=
  (fill_first_unmatched name out recs.reverse).reverse

/-- One event-handling step of `_collect_graph_response`: accumulate nonempty token
chunks; append a fresh record on tool-start; fill the most recent unmatched
same-name record on tool-end. -/
def collect_step (acc : List String × List ToolEventRec) (e : RunEvent) :
    List String × List ToolEventRec :=
  match e with
  | .tokenChunk c => if c ≠ "" then (acc.1 ++ [c], acc.2) else acc
  | .toolStart n i => (acc.1, acc.2 ++ [⟨n, i, none⟩])
  | .toolEnd n o => (acc.1, update_last_unmatched n o acc.2)

/-- `_collect_graph_response`: the joined final text plus the tool-event records. -/
def collect_graph_response (events : List RunEvent) :
    String × List ToolEventRec :=
  let acc := events.foldl collect_step ([], [])
  (String.join acc.1, acc.2)

/-- The nonempty token deltas of an event sequence, in order. -/
def token_contents (events : List RunEvent) : List String :=
  events.filterMap fun e =>
    match e with
    | .tokenChunk c => if c ≠ "" then some c else none
    | _ => none

/-! ## Run-boundary error handling (`stream_chat`, `run_chat`, chat route)

A run either completes, having produced its event sequence, or fails partway
(model-call failure raised out of `astream_events`), having produced a prefix of
events before the exception. -/

inductive GraphOutcome where
  | ok (events : List RunEvent)
  | err (events : List RunEvent) (msg : String)
deriving Repr, DecidableEq

/-- The substitute error text produced by the `except` handlers of `stream_chat`
and `run_chat`. -/
def apology_text (msg : String) : String :=
  "I apologize, but I encountered an error: " ++ msg

/-- `stream_chat`: forward the bridge chunks; on an exception, yield the single
substitute error chunk and stop. -/
def stream_chat (outcome : GraphOutcome) : List String :=
  match outcome with
  | .ok events => stream_graph_events events
  | .err events msg => stream_graph_events events ++ [apology_text msg]

/-- `run_chat`: return the collected response; on an exception, return the
substitute text paired with an empty tool-event list. -/
def run_chat (outcome : GraphOutcome) : String × List ToolEventRec :=
  match outcome with
  | .ok events => collect_graph_response events
  | .err _ msg => (apology_text msg, [])

/-- `generate` in the `/stream` route: wrap every chunk as a server-sent event and
terminate with the `[DONE]` sentinel. -/
def generate_sse (outcome : GraphOutcome) : List String :=
  (stream_chat outcome).map (fun t => "data: " ++ t ++ "\n\n") ++ ["data: [DONE]\n\n"]

/-! ## Per-request tool factory (src/services/ai/tools/)

Each factory closes over exactly one `(account_id, request handles)` pair and
returns a named callable.  The backend services echo the `account_id` they are
called with into every response they build
(`_build_account_holdings_response(account_id, ...)` and the analysis service's
`"AccountId": account_id` in every branch). -/

/-- `AccountHoldingsResponse` as built by `HoldingService._build_account_holdings_response`:
`accountId` is set from the service's `account_id` argument. -/
structure AccountHoldingsResponse where
  account_id : Nat
  payload : String
deriving Repr, DecidableEq

/-- The request-scoped holding service handle: per-account, per-date backend data
(`none` models "no holdings found"). -/
structure HoldingService where
  holdingsData : Nat → String → Option String

/-- `get_holdings_by_account_and_date_async`: `None` when nothing is found,
otherwise a response whose `accountId` is the argument. -/
def get_holdings_by_account_and_date (svc : HoldingService) (accountId : Nat)
    (d : String) : Option AccountHoldingsResponse :=
  (svc.holdingsData accountId d).map fun p => ⟨accountId, p⟩

/-- Request-scoped portfolio-analysis service handle: backend data keyed by
account and date(s). -/
structure PortfolioAnalysisService where
  analysisData : Nat → String → String
  comparisonData : Nat → String → String → String

/-- Backend handles for the EOD-based tools (news, sentiment, live prices);
these close over no account id at all. -/
structure EodHandles where
  newsData : List String → String
  sentimentData : List String → String
  pricesData : List String → String

/-- The request-scoped backend handles shared by all factories of one request:
services plus the date utilities (`parseDate = none` models a parsing exception
caught by the tool's own `except` wrapper) and the current date string. -/
structure RequestHandles where
  holdingService : HoldingService
  analysisService : PortfolioAnalysisService
  eodTool : Option EodHandles
  parseDate : String → Option String
  today : String

/-- A tool's structured result dict, reduced to the fields the isolation claims
are about: the `AccountId` entry (absent for the EOD tools), whether the dict is
an `Error`/`NotConfigured` payload, and the remaining body. -/
structure ToolOutput where
  accountId : Option Nat
  isErr : Bool
  body : String
deriving Repr, DecidableEq

/-- A named callable produced by one factory call. -/
structure ToolBinding where
  name : String
  run : List String → ToolOutput

/-- Smart date handling shared by the tools: `'today'/'current'/'now'` (or an
empty, falsy string) becomes the current date. -/
def effective_date (handles : RequestHandles) (date : String) : String :=
  if date = "" || date.toLower = "today" || date.toLower = "current"
      || date.toLower = "now" then
    handles.today
  else date

/-- `create_portfolio_holdings_tool(holding_service, account_id)`: the returned
closure reads only its captured `account_id` and handles.  Every error path
returns a structured dict carrying the captured `account_id`; the success path
echoes `response.account_id` (which the service set from the same argument). -/
def create_portfolio_holdings_tool (handles : RequestHandles) (accountId : Nat) :
    ToolBinding where
  name := "get_portfolio_holdings"
  run := fun args =>
    let date := args.getD 0 ""
    match handles.parseDate (effective_date handles date) with
    | none =>
        { accountId := some accountId, isErr := true
          body := "Failed to retrieve portfolio holdings" }
    | some parsed =>
        match get_holdings_by_account_and_date handles.holdingService accountId parsed with
        | none =>
            { accountId := some accountId, isErr := true
              body := "No holdings found for the specified date" }
        | some response =>
            { accountId := some response.account_id, isErr := false
              body := response.payload }

/-- `create_portfolio_analysis_tool(portfolio_analysis_service, account_id)`:
the analysis service sets `"AccountId": account_id` in every branch (including
`_create_empty_analysis`), and the tool's own `except` path does as well. -/
def create_portfolio_analysis_tool (handles : RequestHandles) (accountId : Nat) :
    ToolBinding where
  name := "analyze_portfolio_performance"
  run := fun args =>
    let date := args.getD 0 ""
    match handles.parseDate (effective_date handles date) with
    | none =>
        { accountId := some accountId, isErr := true
          body := "Failed to analyze portfolio performance" }
    | some parsed =>
        { accountId := some accountId, isErr := false
          body := handles.analysisService.analysisData accountId parsed }

/-- `create_portfolio_comparison_tool(portfolio_analysis_service, account_id)`. -/
def create_portfolio_comparison_tool (handles : RequestHandles) (accountId : Nat) :
    ToolBinding where
  name := "compare_portfolio_performance"
  run := fun args =>
    match handles.parseDate (args.getD 0 ""), handles.parseDate (args.getD 1 "") with
    | some s, some e =>
        { accountId := some accountId, isErr := false
          body := handles.analysisService.comparisonData accountId s e }
    | _, _ =>
        { accountId := some accountId, isErr := true
          body := "Failed to compare portfolio performance" }

/-- `create_market_intelligence_tools` (news half): closes over the EOD handle
only; its dicts carry no account id. -/
def create_market_context_tool (handles : RequestHandles) : ToolBinding where
  name := "get_market_context"
  run := fun args =>
    match handles.eodTool with
    | none =>
        { accountId := none, isErr := true
          body := "Market news service is not configured" }
    | some eod => { accountId := none, isErr := false, body := eod.newsData args }

/-- `create_market_intelligence_tools` (sentiment half). -/
def create_market_sentiment_tool (handles : RequestHandles) : ToolBinding where
  name := "get_market_sentiment"
  run := fun args =>
    match handles.eodTool with
    | none =>
        { accountId := none, isErr := true
          body := "Market sentiment service is not configured" }
    | some eod => { accountId := none, isErr := false, body := eod.sentimentData args }

/-- `create_real_time_prices_tool`. -/
def create_real_time_prices_tool (handles : RequestHandles) : ToolBinding where
  name := "get_real_time_prices"
  run := fun args =>
    match handles.eodTool with
    | none =>
        { accountId := none, isErr := true
          body := "Real-time price service is not configured" }
    | some eod => { accountId := none, isErr := false, body := eod.pricesData args }

/-- The tool set built for one `(account, request handles)` pair: the six named
callables advertised by `_get_portfolio_tools`. -/
def build_tools_for_account (handles : RequestHandles) (accountId : Nat) :
    List ToolBinding :=
  [create_portfolio_holdings_tool handles accountId,
   create_portfolio_analysis_tool handles accountId,
   create_portfolio_comparison_tool handles accountId,
   create_market_context_tool handles,
   create_market_sentiment_tool handles,
   create_real_time_prices_tool handles]

/-- Concurrent invocation of two bound tools under a scheduler choice: the
schedule decides which invocation runs first.  The closures share no mutable
state (each captures only its immutable `account_id` and the request handles),
so both orders are executed exactly as written. -/
def invoke_pair (tA tB : ToolBinding) (argsA argsB : List String) (aFirst : Bool) :
    ToolOutput × ToolOutput :=
  if aFirst then
    let outA := tA.run argsA
    let outB := tB.run argsB
    (outA, outB)
  else
    let outB := tB.run argsB
    let outA := tA.run argsA
    (outA, outB)

/-! ## Batch price fetch (eod_market_data_tool.py)

`get_real_time_prices_async` fans the tickers out as one task per ticker,
gathered with `return_exceptions=True` and gated by `asyncio.Semaphore(10)`.
Each `_fetch_ticker_price` wraps its whole body in `try/except`, writing
`price_dict[ticker]` only on success, so a failed ticker is simply absent. -/

/-- `self._semaphore = asyncio.Semaphore(10)` in `EodMarketDataTool.__init__`. -/
def semaphore_limit : Nat := 10

/-- A JSON field value as examined by `_extract_price_from_response`. -/
inductive JsonVal where
  | num (n : Int)
  | str (s : String)
  | other
deriving Repr, DecidableEq

/-- What the outside world does for one ticker: the HTTP call (or `.json()`)
raises, or a response with a status code and JSON object arrives. -/
inductive FetchEnvResult where
  | raised (msg : String)
  | resp (status : Nat) (fields : List (String × JsonVal))
deriving Repr, DecidableEq

/-- `price_fields = ["close", "price", "last", "current_price", "value"]`. -/
def price_fields : List String := ["close", "price", "last", "current_price", "value"]

def lookup_json_field (fields : List (String × JsonVal)) (f : String) : Option JsonVal :=
  (fields.find? (fun kv => kv.1 = f)).map (fun kv => kv.2)

/-- Inner loop of `_extract_price_from_response`: first recognised field wins;
a numeric value is returned directly, a string value goes through `Decimal`
(`parseDec`, with `none` modelling the caught parse exception and `continue`). -/
def extract_price_fields (parseDec : String → Option Int)
    (fields : List (String × JsonVal)) : List String → Option Int
  | [] => none
  | f :: rest =>
      match lookup_json_field fields f with
      | some (.num n) => some n
      | some (.str s) =>
          match parseDec s with
          | some p => some p
          | none => extract_price_fields parseDec fields rest
      | some .other => extract_price_fields parseDec fields rest
      | none => extract_price_fields parseDec fields rest

/-- `_extract_price_from_response(json_data, ticker)`. -/
def extract_price_from_response (parseDec : String → Option Int)
    (fields : List (String × JsonVal)) : Option Int :=
  extract_price_fields parseDec fields price_fields

/-- `_fetch_ticker_price`: any raised exception is caught and logged; a non-200
status or an unrecognised payload yields no entry. -/
def fetch_ticker_price (parseDec : String → Option Int)
    (env : String → FetchEnvResult) (ticker : String) : Option Int :=
  match env ticker with
  | .raised _ => none
  | .resp status fields =>
      if status = 200 then extract_price_from_response parseDec fields else none

/-- The Python dict `price_dict`, as a finite map from ticker to price. -/
def PriceDict : Type := String → Option Int

/-- `price_dict[ticker] = price`. -/
def dict_insert (d : PriceDict) (k : String) (v : Int) : PriceDict :=
  fun x => if x = k then some v else d x

def empty_dict : PriceDict := fun _ => none

/-- `get_real_time_prices_async(tickers)`: empty on a missing token or empty
ticker list; otherwise each per-ticker task contributes its entry iff its fetch
succeeded.  The function is total: no exception escapes the batch. -/
def get_real_time_prices_async (apiToken : String) (parseDec : String → Option Int)
    (env : String → FetchEnvResult) (tickers : List String) : PriceDict :=
  if apiToken = "" then empty_dict
  else if tickers = [] then empty_dict
  else
    tickers.foldl
      (fun dict ticker =>
        match fetch_ticker_price parseDec env ticker with
        | some p => dict_insert dict ticker p
        | none => dict)
      empty_dict

/-! The semaphore discipline, as a small-step scheduler over the per-ticker
tasks: a waiting task may start only while fewer than `semaphore_limit` tasks
hold the semaphore; a running task may finish at any time. -/

inductive TaskPhase where
  | waiting
  | running
  | finished
deriving Repr, DecidableEq

def running_count (ts : List TaskPhase) : Nat :=
  (ts.filter (fun p => p = .running)).length

/-- One scheduler step of the gathered batch. -/
inductive BatchStep : List TaskPhase → List TaskPhase → Prop where
  | start (pre post : List TaskPhase) :
      running_count (pre ++ .waiting :: post) < semaphore_limit →
      BatchStep (pre ++ .waiting :: post) (pre ++ .running :: post)
  | finish (pre post : List TaskPhase) :
      BatchStep (pre ++ .running :: post) (pre ++ .finished :: post)

/-- All tasks of the batch start out waiting on the semaphore. -/
def batch_init (n : Nat) : List TaskPhase := List.replicate n .waiting

/-! ## Concrete instances used by the closed theorems and witnesses below -/

/-- A model oracle that always requests one holdings tool call. -/
def oracle_w : List Msg → AiResponse :=
  fun _ => ⟨"calling tools", [⟨"get_portfolio_holdings", "date=today"⟩]⟩

/-- A model oracle that always answers directly, with no tool calls. -/
def oracle_plain_w : List Msg → AiResponse :=
  fun _ => ⟨"Your portfolio looks fine.", []⟩

def exec_w : ToolCall → String := fun _ => "tool result"

def sys_w : String := "You are a portfolio advisor."

def user_w : String := "Show me my portfolio holdings"

/-- A store holding one active thread for account 1, last active at time 0
(the timestamp is aware, as written by `_create_new_thread`). -/
def thread_w : ConversationThread :=
  { id := 1
    account_id := 1
    thread_title := "Conversation"
    last_activity := ⟨0, true⟩
    is_active := true
    created_at := ⟨0, true⟩
    updated_at := ⟨0, true⟩ }

def store_w : ThreadStore := ⟨[thread_w], 2⟩

/-- An empty store with the id sequence at 1. -/
def store_empty_w : ThreadStore := ⟨[], 1⟩

/-- The store after the first resolution against `store_empty_w` at time 0. -/
def store_after_first_w : ThreadStore := ⟨[thread_w], 2⟩

/-- Concrete request handles shared between two accounts in the tool-factory
witness: both account tool sets are built over these same backends. -/
def handles_w : RequestHandles :=
  { holdingService := ⟨fun a d => some ("rows for account " ++ toString a ++ " on " ++ d)⟩
    analysisService :=
      ⟨fun a d => "analysis for account " ++ toString a ++ " on " ++ d,
       fun a s e => "comparison for account " ++ toString a ++ " from " ++ s ++ " to " ++ e⟩
    eodTool := none
    parseDate := fun s => some s
    today := "2026-10-12" }

/-- Decimal parsing for the batch-fetch witness. -/
def parse_dec_w : String → Option Int := fun s => s.toInt?

/-- Environment of the price-fetch example: `AAPL.US` answers 200 with a close
price; every other ticker (in particular `ZZZZ.US`) raises. -/
def env_w : String → FetchEnvResult :=
  fun ticker =>
    if ticker = "AAPL.US" then .resp 200 [("close", .num 123)]
    else .raised "connection failure"

/-- Tool-event records used by the pairing witness: two starts of the same tool,
the second still unmatched. -/
def recs_w : List ToolEventRec :=
  [⟨"get_portfolio_holdings", "date=2026-10-10", some "out0"⟩,
   ⟨"get_portfolio_holdings", "date=2026-10-12", none⟩]

/-- The `(name, input)` projection of a tool-event record. -/
def rec_ni (r : ToolEventRec) : String × String := (r.name, r.input)

/-- The `(name, input)` pairs of the tool-start events of a sequence, in order. -/
def tool_start_events (events : List RunEvent) : List (String × String) :=
  events.filterMap fun e =>
    match e with
    | .toolStart n i => some (n, i)
    | _ => none

/-- The thread created by resolving against the empty store for account 5 at
time 0 (used by the ownership witness). -/
def thread5_w : ConversationThread :=
  { id := 1
    account_id := 5
    thread_title := "Conversation"
    last_activity := ⟨0, true⟩
    is_active := true
    created_at := ⟨0, true⟩
    updated_at := ⟨0, true⟩ }

def store5_w : ThreadStore := ⟨[thread5_w], 2⟩

/-! ## Theorems -/

lemma getLast?_call_model (oracle : List Msg → AiResponse) (sys : String)
    (msgs : List Msg) :
    (call_model oracle sys msgs).getLast? =
      some (Msg.ai (oracle (call_model_sent sys msgs)).content
        (oracle (call_model_sent sys msgs)).toolCalls) := by
  simp [call_model]

lemma should_continue_call_model (oracle : List Msg → AiResponse) (sys : String)
    (msgs : List Msg) :
    should_continue (call_model oracle sys msgs) =
      .ok (if (oracle (call_model_sent sys msgs)).toolCalls = []
           then .finish else .tools) := by
  unfold should_continue
  rw [getLast?_call_model]
  by_cases h : (oracle (call_model_sent sys msgs)).toolCalls = [] <;>
    simp [Msg.toolCalls, h]

lemma step_cfg_reason (oracle : List Msg → AiResponse) (exec : ToolCall → String)
    (sys : String) (msgs : List Msg) :
    step_cfg oracle exec sys ⟨.reason, msgs⟩ =
      .ok ⟨if (oracle (call_model_sent sys msgs)).toolCalls = []
           then .finished else .act,
           call_model oracle sys msgs⟩ := by
  show (match should_continue (call_model oracle sys msgs) with
        | Except.error e => (Except.error e : Except String RunCfg)
        | Except.ok Route.tools => Except.ok ⟨Node.act, call_model oracle sys msgs⟩
        | Except.ok Route.finish => Except.ok ⟨Node.finished, call_model oracle sys msgs⟩) = _
  rw [should_continue_call_model]
  by_cases h : (oracle (call_model_sent sys msgs)).toolCalls = [] <;> simp [h]

/-- C2: a run starts at the REASON node; a REASON step always succeeds and moves
to ACT exactly when the latest model output requests at least one tool call and
to END otherwise; an ACT step always returns to REASON. -/
theorem state_graph_transitions (oracle : List Msg → AiResponse)
    (exec : ToolCall → String) (sys u : String) (msgs : List Msg) :
    (initial_cfg u).node = .reason ∧
    (∃ cfg', step_cfg oracle exec sys ⟨.reason, msgs⟩ = .ok cfg' ∧
       cfg'.messages = call_model oracle sys msgs ∧
       (cfg'.node = .act ↔ (oracle (call_model_sent sys msgs)).toolCalls ≠ []) ∧
       (cfg'.node = .finished ↔ (oracle (call_model_sent sys msgs)).toolCalls = [])) ∧
    (∀ ms, ∃ cfg', step_cfg oracle exec sys ⟨.act, ms⟩ = .ok cfg' ∧
       cfg'.node = .reason) := by
  refine ⟨rfl, ?_, fun ms => ⟨⟨.reason, tool_node exec ms⟩, rfl, rfl⟩⟩
  refine ⟨_, step_cfg_reason oracle exec sys msgs, rfl, ?_, ?_⟩ <;>
    by_cases h : (oracle (call_model_sent sys msgs)).toolCalls = [] <;> simp [h]

lemma count_system_append (l1 l2 : List Msg) :
    count_system (l1 ++ l2) = count_system l1 + count_system l2 := by
  simp [count_system, List.filter_append]

lemma count_system_call_model (oracle : List Msg → AiResponse) (sys : String)
    (msgs : List Msg) :
    count_system (call_model oracle sys msgs) = count_system msgs := by
  simp [call_model, count_system_append, count_system, Msg.isSystem]

lemma count_system_tool_map (exec : ToolCall → String) (calls : List ToolCall) :
    count_system (calls.map fun tc => Msg.tool (exec tc)) = 0 := by
  induction calls with
  | nil => rfl
  | cons c cs ih => simp [count_system, Msg.isSystem]

lemma count_system_tool_node (exec : ToolCall → String) (msgs : List Msg) :
    count_system (tool_node exec msgs) = count_system msgs := by
  simp [tool_node, count_system_append, count_system_tool_map]

lemma step_total_no_system (oracle : List Msg → AiResponse) (exec : ToolCall → String)
    (sys : String) (cfg : RunCfg) (h : count_system cfg.messages = 0) :
    count_system (step_cfg_total oracle exec sys cfg).messages = 0 := by
  obtain ⟨node, msgs⟩ := cfg
  cases node with
  | reason =>
      rw [step_cfg_total, step_cfg_reason]
      simpa [count_system_call_model] using h
  | act =>
      rw [step_cfg_total]
      simpa [step_cfg, count_system_tool_node] using h
  | finished =>
      rw [step_cfg_total]
      simpa [step_cfg] using h

lemma trace_no_system (oracle : List Msg → AiResponse) (exec : ToolCall → String)
    (sys u : String) (n : Nat) :
    count_system (run_trace oracle exec sys u n).messages = 0 := by
  induction n with
  | zero => rfl
  | succ n ih =>
      rw [run_trace, Function.iterate_succ_apply']
      exact step_total_no_system oracle exec sys _ ih

lemma contains_call_model (oracle : List Msg → AiResponse) (sys : String)
    (msgs : List Msg) :
    contains_ai_or_tool (call_model oracle sys msgs) = true := by
  simp [call_model, contains_ai_or_tool, Msg.isAiOrTool]

lemma step_total_preserves_contains (oracle : List Msg → AiResponse)
    (exec : ToolCall → String) (sys : String) (cfg : RunCfg)
    (h : contains_ai_or_tool cfg.messages = true) :
    contains_ai_or_tool (step_cfg_total oracle exec sys cfg).messages = true := by
  obtain ⟨node, msgs⟩ := cfg
  cases node with
  | reason =>
      rw [step_cfg_total, step_cfg_reason]
      exact contains_call_model oracle sys msgs
  | act =>
      rw [step_cfg_total]
      simp only [step_cfg]
      simp only [contains_ai_or_tool, tool_node, List.any_append] at h ⊢
      simp [h]
  | finished =>
      rw [step_cfg_total]
      simpa [step_cfg] using h

lemma trace_contains (oracle : List Msg → AiResponse) (exec : ToolCall → String)
    (sys u : String) (n : Nat) :
    contains_ai_or_tool (run_trace oracle exec sys u (n + 1)).messages = true := by
  induction n with
  | zero =>
      rw [run_trace, Function.iterate_succ_apply']
      show contains_ai_or_tool (step_cfg_total oracle exec sys (initial_cfg u)).messages = true
      rw [step_cfg_total]
      rw [show initial_cfg u = ⟨.reason, [Msg.human u]⟩ from rfl, step_cfg_reason]
      exact contains_call_model oracle sys _
  | succ n ih =>
      rw [run_trace, Function.iterate_succ_apply']
      exact step_total_preserves_contains oracle exec sys _ ih

/-- C3: on the first REASON step of a run the message list sent to the model
contains exactly one context/system message, placed first; every later REASON
step of the same run sees agent/tool history, so the injection guard is false
and its sent list contains no system message at all. -/
theorem context_message_injected_once (oracle : List Msg → AiResponse)
    (exec : ToolCall → String) (sys u : String) :
    ((run_trace oracle exec sys u 0).node = .reason ∧
     count_system (call_model_sent sys (run_trace oracle exec sys u 0).messages) = 1 ∧
     (call_model_sent sys (run_trace oracle exec sys u 0).messages).head? =
       some (Msg.system sys)) ∧
    (∀ n, 0 < n → (run_trace oracle exec sys u n).node = .reason →
       is_first_message (run_trace oracle exec sys u n).messages = false ∧
       call_model_sent sys (run_trace oracle exec sys u n).messages =
         (run_trace oracle exec sys u n).messages ∧
       count_system (call_model_sent sys (run_trace oracle exec sys u n).messages) = 0) := by
  constructor
  · refine ⟨rfl, ?_, ?_⟩ <;>
      simp [run_trace, initial_cfg, call_model_sent, is_first_message,
        count_system, Msg.isSystem, Msg.isAiOrTool]
  · intro n hn _hreason
    obtain ⟨m, rfl⟩ : ∃ m, n = m + 1 := ⟨n - 1, by omega⟩
    have hc := trace_contains oracle exec sys u m
    have hfirst : is_first_message (run_trace oracle exec sys u (m + 1)).messages = false := by
      simp only [contains_ai_or_tool] at hc
      simp [is_first_message, hc]
    refine ⟨hfirst, ?_, ?_⟩
    · simp [call_model_sent, hfirst]
    · rw [call_model_sent]
      rw [hfirst]
      simpa using trace_no_system oracle exec sys u (m + 1)

/-- Witness for C3 at a concrete run: with an oracle that always requests a
tool call, step 2 is again a REASON step and its injection guard is false. -/
theorem context_message_injected_once_witness :
    0 < 2 ∧ (run_trace oracle_w exec_w sys_w user_w 2).node = Node.reason ∧
    is_first_message (run_trace oracle_w exec_w sys_w user_w 2).messages = false :=
  ⟨by decide, by decide,
   ((context_message_injected_once oracle_w exec_w sys_w user_w).2 2
      (by decide) (by decide)).1⟩

/-- C4: when the model call fails partway through a run, the streaming caller
receives the chunks produced so far followed by exactly one terminal
error-tagged chunk, and the non-streaming caller receives the substitute text
answer paired with an empty tool-event trace; the SSE route wraps the error
chunk and then closes the stream with the `[DONE]` sentinel. -/
theorem run_error_surfacing (events : List RunEvent) (msg : String) :
    stream_chat (.err events msg) = stream_graph_events events ++ [apology_text msg] ∧
    (stream_chat (.err events msg)).getLast? = some (apology_text msg) ∧
    run_chat (.err events msg) = (apology_text msg, []) ∧
    generate_sse (.err events msg) =
      ((stream_graph_events events).map (fun t => "data: " ++ t ++ "\n\n") ++
        ["data: " ++ apology_text msg ++ "\n\n", "data: [DONE]\n\n"]) := by
  refine ⟨rfl, ?_, rfl, ?_⟩
  · simp [stream_chat]
  · simp [generate_sse, stream_chat]

/-- C5 (code bug): with an active thread present, the idle check of
`get_or_create_active_thread` subtracts a naive datetime
(`last_activity.replace(tzinfo=None)`) from an aware one
(`datetime.now(timezone.utc)`), so at an idle time of exactly 30 minutes — and
equally at 30 minutes + 1 second — the call raises `TypeError` instead of
reaching the strict threshold comparison. -/
theorem idle_cutoff_raises_typeerror :
    get_or_create_active_thread store_w 1 none 1800 =
      .error "TypeError: cannot subtract offset-naive and offset-aware datetimes" ∧
    get_or_create_active_thread store_w 1 none 1801 =
      .error "TypeError: cannot subtract offset-naive and offset-aware datetimes" :=
  ⟨rfl, rfl⟩

/-- C9 (code bug): resolving a thread for account 1 against an empty store
creates and returns a new thread, but the immediately following resolution (no
elapsed time) finds that active thread and raises `TypeError` in the idle
computation instead of returning the same thread id. -/
theorem thread_resolution_second_call_raises :
    get_or_create_active_thread store_empty_w 1 none 0 = .ok (thread_w, store_after_first_w) ∧
    get_or_create_active_thread store_after_first_w 1 none 0 =
      .error "TypeError: cannot subtract offset-naive and offset-aware datetimes" :=
  ⟨rfl, rfl⟩

/-- C10 counterexample: with a nonexistent `thread_id` (99) and an active thread
present for the account, `get_or_create_active_thread` raises `TypeError`
rather than silently falling back to the account's own active thread. -/
theorem thread_resolution_raises_on_bad_thread_id :
    get_or_create_active_thread store_w 1 (some 99) 0 =
      .error "TypeError: cannot subtract offset-naive and offset-aware datetimes" :=
  rfl

lemma fallback_ownership (store : ThreadStore) (accountId : Nat) (t0 : Int)
    (th : ConversationThread) (store' : ThreadStore)
    (h : get_or_create_fallback store accountId t0 = .ok (th, store')) :
    th.account_id = accountId ∧ th.is_active = true := by
  unfold get_or_create_fallback at h
  split at h
  · simp [py_datetime_sub, now_utc, replace_tzinfo_none] at h
  · simp only [create_new_thread, Except.ok.injEq, Prod.mk.injEq] at h
    obtain ⟨hth, _⟩ := h
    subst hth
    exact ⟨rfl, rfl⟩

/-- C10 (amended): whenever `get_or_create_active_thread` returns a thread at
all, that thread belongs to the calling account and is active — it never
returns another account's thread, for any store, `thread_id` argument and
time. -/
theorem thread_resolution_ownership (store : ThreadStore) (accountId : Nat)
    (threadId : Option Nat) (t0 : Int) (th : ConversationThread) (store' : ThreadStore)
    (h : get_or_create_active_thread store accountId threadId t0 = .ok (th, store')) :
    th.account_id = accountId ∧ th.is_active = true := by
  unfold get_or_create_active_thread at h
  rcases threadId with _ | tid
  · exact fallback_ownership store accountId t0 th store' h
  · dsimp only at h
    by_cases h0 : tid ≠ 0
    · rw [if_pos h0] at h
      cases heq : get_thread_by_id store tid accountId with
      | none =>
          rw [heq] at h
          exact fallback_ownership store accountId t0 th store' h
      | some t =>
          rw [heq] at h
          dsimp only at h
          by_cases hactive : t.is_active
          · rw [if_pos hactive] at h
            have hacct : t.account_id = accountId := by
              have := List.find?_some heq
              simp only [Bool.and_eq_true, decide_eq_true_eq] at this
              exact this.2
            simp only [update_last_activity, Except.ok.injEq, Prod.mk.injEq] at h
            obtain ⟨hth, _⟩ := h
            subst hth
            exact ⟨hacct, hactive⟩
          · rw [if_neg hactive] at h
            exact fallback_ownership store accountId t0 th store' h
    · rw [if_neg h0] at h
      exact fallback_ownership store accountId t0 th store' h

/-- Witness for C10's amended theorem at a concrete input: resolving for
account 5 against the empty store with a bad `thread_id` yields a thread owned
by account 5 and active. -/
theorem thread_resolution_ownership_witness :
    thread5_w.account_id = 5 ∧ thread5_w.is_active = true :=
  thread_resolution_ownership store_empty_w 5 (some 99) 0 thread5_w store5_w rfl

lemma holdings_tool_account (handles : RequestHandles) (a : Nat)
    (args : List String) (b : Nat)
    (h : ((create_portfolio_holdings_tool handles a).run args).accountId = some b) :
    b = a := by
  simp only [create_portfolio_holdings_tool] at h
  split at h
  · simp at h
    omega
  case h_2 parsed _ =>
    cases heq : get_holdings_by_account_and_date handles.holdingService a parsed with
    | none =>
        rw [heq] at h
        simp at h
        omega
    | some response =>
        rw [heq] at h
        have hresp : response.account_id = a := by
          unfold get_holdings_by_account_and_date at heq
          obtain ⟨p, _, hr⟩ := Option.map_eq_some'.mp heq
          rw [← hr]
        simp [hresp] at h
        omega

lemma analysis_tool_account (handles : RequestHandles) (a : Nat)
    (args : List String) (b : Nat)
    (h : ((create_portfolio_analysis_tool handles a).run args).accountId = some b) :
    b = a := by
  simp only [create_portfolio_analysis_tool] at h
  split at h <;> simp at h <;> omega

lemma comparison_tool_account (handles : RequestHandles) (a : Nat)
    (args : List String) (b : Nat)
    (h : ((create_portfolio_comparison_tool handles a).run args).accountId = some b) :
    b = a := by
  simp only [create_portfolio_comparison_tool] at h
  split at h <;> simp at h <;> omega

lemma eod_tools_no_account (handles : RequestHandles) (args : List String) :
    ((create_market_context_tool handles).run args).accountId = none ∧
    ((create_market_sentiment_tool handles).run args).accountId = none ∧
    ((create_real_time_prices_tool handles).run args).accountId = none := by
  refine ⟨?_, ?_, ?_⟩ <;>
    simp only [create_market_context_tool, create_market_sentiment_tool,
      create_real_time_prices_tool] <;>
    split <;> rfl

lemma tool_set_account (handles : RequestHandles) (c : Nat) (t : ToolBinding)
    (ht : t ∈ build_tools_for_account handles c) (args : List String) (b : Nat)
    (hb : (t.run args).accountId = some b) : b = c := by
  simp only [build_tools_for_account, List.mem_cons, List.not_mem_nil, or_false] at ht
  rcases ht with rfl | rfl | rfl | rfl | rfl | rfl
  · exact holdings_tool_account handles c args b hb
  · exact analysis_tool_account handles c args b hb
  · exact comparison_tool_account handles c args b hb
  · rw [(eod_tools_no_account handles args).1] at hb; cases hb
  · rw [(eod_tools_no_account handles args).2.1] at hb; cases hb
  · rw [(eod_tools_no_account handles args).2.2] at hb; cases hb

/-- C1: the tool sets built for accounts A and B over the same shared backend
handles are isolated: any tool bound for an account only ever carries that
account's id in its output (whatever the arguments), in particular never the
other account's id, and concurrent invocation — under either scheduling order —
produces exactly the two independent per-binding results. -/
theorem tool_binding_isolation (handles : RequestHandles) (A B : Nat) (hAB : A ≠ B)
    (tA tB : ToolBinding)
    (hA : tA ∈ build_tools_for_account handles A)
    (hB : tB ∈ build_tools_for_account handles B)
    (argsA argsB : List String) :
    (∀ b, (tA.run argsA).accountId = some b → b = A) ∧
    (∀ b, (tB.run argsB).accountId = some b → b = B) ∧
    (tA.run argsA).accountId ≠ some B ∧
    (tB.run argsB).accountId ≠ some A ∧
    (∀ aFirst, invoke_pair tA tB argsA argsB aFirst = (tA.run argsA, tB.run argsB)) := by
  refine ⟨fun b hb => tool_set_account handles A tA hA argsA b hb,
          fun b hb => tool_set_account handles B tB hB argsB b hb, ?_, ?_, ?_⟩
  · intro hcon
    exact hAB (tool_set_account handles A tA hA argsA B hcon).symm
  · intro hcon
    exact hAB (tool_set_account handles B tB hB argsB A hcon)
  · intro aFirst
    cases aFirst <;> rfl

/-- Witness for C1 at concrete accounts 1 and 2 sharing `handles_w`: the
holdings tool bound for account 1 never reports account 2. -/
theorem tool_binding_isolation_witness :
    ((create_portfolio_holdings_tool handles_w 1).run ["today"]).accountId ≠ some 2 :=
  (tool_binding_isolation handles_w 1 2 (by decide)
      (create_portfolio_holdings_tool handles_w 1)
      (create_portfolio_holdings_tool handles_w 2)
      (by simp [build_tools_for_account])
      (by simp [build_tools_for_account])
      ["today"] ["today"]).2.2.1

lemma running_count_append (l1 l2 : List TaskPhase) :
    running_count (l1 ++ l2) = running_count l1 + running_count l2 := by
  simp [running_count, List.filter_append]

lemma running_count_cons (p : TaskPhase) (l : List TaskPhase) :
    running_count (p :: l) =
      (if p = .running then 1 else 0) + running_count l := by
  by_cases h : p = .running <;> simp [running_count, List.filter_cons, h, Nat.add_comm]

lemma batch_step_bound {a b : List TaskPhase} (h : BatchStep a b)
    (hb : running_count a ≤ semaphore_limit) :
    running_count b ≤ semaphore_limit := by
  cases h with
  | start pre post hlt =>
      rw [running_count_append, running_count_cons] at hlt ⊢
      simp only [show (TaskPhase.waiting = TaskPhase.running) = False by simp,
        show (TaskPhase.running = TaskPhase.running) = True by simp,
        if_true, if_false] at hlt ⊢
      omega
  | finish pre post =>
      rw [running_count_append, running_count_cons] at hb ⊢
      simp only [show (TaskPhase.running = TaskPhase.running) = True by simp,
        show (TaskPhase.finished = TaskPhase.running) = False by simp,
        if_true, if_false] at hb ⊢
      omega

lemma batch_reach_bound {s0 s : List TaskPhase}
    (h : Relation.ReflTransGen BatchStep s0 s)
    (h0 : running_count s0 ≤ semaphore_limit) :
    running_count s ≤ semaphore_limit := by
  induction h with
  | refl => exact h0
  | tail _ hstep ih => exact batch_step_bound hstep ih

lemma running_count_batch_init (n : Nat) : running_count (batch_init n) = 0 := by
  induction n with
  | zero => rfl
  | succ n ih =>
      rw [batch_init, List.replicate_succ, running_count_cons]
      simpa [batch_init] using ih

lemma price_fold_lookup (parseDec : String → Option Int)
    (env : String → FetchEnvResult) (tickers : List String) (d : PriceDict)
    (t : String) :
    (tickers.foldl (fun dict ticker =>
        match fetch_ticker_price parseDec env ticker with
        | some p => dict_insert dict ticker p
        | none => dict) d) t =
      if t ∈ tickers ∧ (fetch_ticker_price parseDec env t).isSome
      then fetch_ticker_price parseDec env t else d t := by
  induction tickers generalizing d with
  | nil => simp
  | cons x xs ih =>
      rw [List.foldl_cons, ih]
      by_cases hx : t = x
      · subst hx
        cases hf : fetch_ticker_price parseDec env t with
        | none => simp [hf]
        | some p =>
            simp only [hf, Option.isSome_some, List.mem_cons, true_or, true_and,
              and_true, if_pos]
            split
            · rfl
            · simp [dict_insert]
      · cases hf : fetch_ticker_price parseDec env x with
        | none => simp [hf, hx]
        | some p => simp [hf, hx, dict_insert]

/-- C6: the batch price fetch is gated by a semaphore of fixed size 10 — along
any scheduler interleaving, at most 10 sub-fetches run at once — and sub-fetch
failures are isolated: for a configured token, a ticker appears in the result
map exactly when its own fetch succeeded, independently of the other tickers;
concretely, for `["AAPL.US", "ZZZZ.US"]` with `ZZZZ.US` raising, the result
contains `AAPL.US` only, and no exception escapes (the batch is a total
function into a price map). -/
theorem batch_price_fetch_isolated (n : Nat) (s : List TaskPhase)
    (hreach : Relation.ReflTransGen BatchStep (batch_init n) s)
    (apiToken : String) (htok : apiToken ≠ "")
    (parseDec : String → Option Int) (env : String → FetchEnvResult)
    (tickers : List String) (t : String) :
    (semaphore_limit = 10 ∧ running_count s ≤ semaphore_limit) ∧
    (∀ p, get_real_time_prices_async apiToken parseDec env tickers t = some p ↔
        t ∈ tickers ∧ fetch_ticker_price parseDec env t = some p) ∧
    get_real_time_prices_async "token" parse_dec_w env_w
      ["AAPL.US", "ZZZZ.US"] "AAPL.US" = some 123 ∧
    get_real_time_prices_async "token" parse_dec_w env_w
      ["AAPL.US", "ZZZZ.US"] "ZZZZ.US" = none := by
  refine ⟨⟨rfl, batch_reach_bound hreach (by rw [running_count_batch_init]; simp)⟩,
    ?_, by decide, by decide⟩
  intro p
  unfold get_real_time_prices_async
  rw [if_neg htok]
  by_cases htks : tickers = []
  · subst htks
    simp [empty_dict]
  · rw [if_neg htks, price_fold_lookup]
    constructor
    · intro h
      by_cases hc : t ∈ tickers ∧ (fetch_ticker_price parseDec env t).isSome
      · rw [if_pos hc] at h
        exact ⟨hc.1, h⟩
      · rw [if_neg hc] at h
        exact absurd h (by simp [empty_dict])
    · rintro ⟨hmem, hf⟩
      rw [if_pos ⟨hmem, by simp [hf]⟩]
      exact hf

/-- Witness for C6: a one-task batch can take one semaphore-acquiring step from
the all-waiting state, and the failed `ZZZZ.US` fetch is absent from the
concrete result map. -/
theorem batch_price_fetch_isolated_witness :
    running_count [TaskPhase.running] ≤ semaphore_limit ∧
    get_real_time_prices_async "token" parse_dec_w env_w
      ["AAPL.US", "ZZZZ.US"] "ZZZZ.US" = none := by
  have hstep : BatchStep (batch_init 1) [TaskPhase.running] := by
    have h := BatchStep.start [] []
      (by rw [show ([] : List TaskPhase) ++ .waiting :: [] = batch_init 1 from rfl,
            running_count_batch_init]; simp [semaphore_limit])
    simpa using h
  have happ := batch_price_fetch_isolated 1 [TaskPhase.running]
    (Relation.ReflTransGen.single hstep) "token" (by decide) parse_dec_w env_w
    ["AAPL.US", "ZZZZ.US"] "ZZZZ.US"
  exact ⟨happ.1.2, happ.2.2.2⟩

lemma stream_tagged_tokens (events : List RunEvent) :
    (stream_graph_events_tagged events).filterMap
        (fun c => if c.1 then none else some c.2) = token_contents events := by
  induction events with
  | nil => rfl
  | cons e rest ih =>
      cases e with
      | tokenChunk c =>
          by_cases hc : c = "" <;>
            simp [stream_graph_events_tagged, token_contents, hc,
              List.filterMap_cons, List.filterMap_append, ih]
      | toolStart n i =>
          cases h : tool_status_message n <;>
            simp [stream_graph_events_tagged, token_contents, h,
              List.filterMap_cons] <;>
            simpa [token_contents] using ih
      | toolEnd n o =>
          cases h : tool_completion_message n <;>
            simp [stream_graph_events_tagged, token_contents, h,
              List.filterMap_cons] <;>
            simpa [token_contents] using ih

lemma collect_fold_text (events : List RunEvent) (cs : List String)
    (recs : List ToolEventRec) :
    (events.foldl collect_step (cs, recs)).1 = cs ++ token_contents events := by
  induction events generalizing cs recs with
  | nil => simp [token_contents]
  | cons e rest ih =>
      cases e with
      | tokenChunk c =>
          by_cases hc : c = "" <;>
            simp [collect_step, hc, ih, token_contents, List.filterMap_cons]
      | toolStart n i =>
          simp [collect_step, ih, token_contents, List.filterMap_cons]
      | toolEnd n o =>
          simp [collect_step, ih, token_contents, List.filterMap_cons]

/-- C7: for one fixed event sequence, the concatenation of the streaming-mode
chunks with the tool status lines excluded (the chunks tagged as forwarded
token deltas) equals the `final_text` produced by collection mode. -/
theorem streaming_collection_equivalence (events : List RunEvent) :
    stream_graph_events events = (stream_graph_events_tagged events).map Prod.snd ∧
    String.join ((stream_graph_events_tagged events).filterMap
        (fun c => if c.1 then none else some c.2)) =
      (collect_graph_response events).1 := by
  refine ⟨rfl, ?_⟩
  rw [stream_tagged_tokens]
  show _ = (String.join (events.foldl collect_step ([], [])).1)
  rw [collect_fold_text]
  simp

lemma fill_first_preserves_ni (name out : String) (recs : List ToolEventRec) :
    (fill_first_unmatched name out recs).map rec_ni = recs.map rec_ni := by
  induction recs with
  | nil => rfl
  | cons r rs ih =>
      rw [fill_first_unmatched]
      split
      · simp [rec_ni]
      · simp [ih]

lemma update_preserves_ni (name out : String) (recs : List ToolEventRec) :
    (update_last_unmatched name out recs).map rec_ni = recs.map rec_ni := by
  rw [update_last_unmatched, List.map_reverse, fill_first_preserves_ni,
    List.map_reverse, List.reverse_reverse]

lemma collect_fold_recs (events : List RunEvent) (cs : List String)
    (recs : List ToolEventRec) :
    ((events.foldl collect_step (cs, recs)).2).map rec_ni =
      recs.map rec_ni ++ tool_start_events events := by
  induction events generalizing cs recs with
  | nil => simp [tool_start_events]
  | cons e rest ih =>
      cases e with
      | tokenChunk c =>
          by_cases hc : c = "" <;>
            simp [collect_step, hc, ih, tool_start_events, List.filterMap_cons]
      | toolStart n i =>
          simp [collect_step, ih, tool_start_events, List.filterMap_cons, rec_ni]
      | toolEnd n o =>
          simp [collect_step, ih, tool_start_events, List.filterMap_cons,
            update_preserves_ni]

lemma fill_first_skip (name out : String) (l1 l2 : List ToolEventRec)
    (h : ∀ x ∈ l1, ¬(x.name = name ∧ x.output = none)) :
    fill_first_unmatched name out (l1 ++ l2) = l1 ++ fill_first_unmatched name out l2 := by
  induction l1 with
  | nil => rfl
  | cons r rs ih =>
      rw [List.cons_append, fill_first_unmatched,
        if_neg (h r (List.mem_cons_self r rs)), ih fun x hx => h x (List.mem_cons_of_mem r hx),
        List.cons_append]

lemma fill_first_id (name out : String) (recs : List ToolEventRec)
    (h : ∀ x ∈ recs, ¬(x.name = name ∧ x.output = none)) :
    fill_first_unmatched name out recs = recs := by
  have hs := fill_first_skip name out recs [] h
  rw [List.append_nil] at hs
  rw [hs, show fill_first_unmatched name out [] = [] from rfl, List.append_nil]

/-- C8: collection mode returns the concatenation of all (nonempty) token
deltas as the final string; the record list preserves the tool-start events,
their names and inputs, in order; and each tool-end event fills the output of
the most recently started record with the same name whose output is still
`None`, leaving the list unchanged when no such record exists. -/
theorem collection_mode_pairing (events : List RunEvent) :
    (collect_graph_response events).1 = String.join (token_contents events) ∧
    ((collect_graph_response events).2).map rec_ni = tool_start_events events ∧
    (∀ name out pre (r : ToolEventRec) post,
        r.name = name → r.output = none →
        (∀ x ∈ post, ¬(x.name = name ∧ x.output = none)) →
        update_last_unmatched name out (pre ++ r :: post) =
          pre ++ { r with output := some out } :: post) ∧
    (∀ name out (recs : List ToolEventRec),
        (∀ x ∈ recs, ¬(x.name = name ∧ x.output = none)) →
        update_last_unmatched name out recs = recs) := by
  refine ⟨?_, ?_, ?_, ?_⟩
  · show (String.join (events.foldl collect_step ([], [])).1) = _
    rw [collect_fold_text]
    simp
  · show ((events.foldl collect_step ([], [])).2).map rec_ni = _
    rw [collect_fold_recs]
    simp
  · intro name out pre r post hname hout hpost
    rw [update_last_unmatched, List.reverse_append, List.reverse_cons,
      List.append_assoc]
    rw [fill_first_skip name out post.reverse _
      (fun x hx => hpost x (List.mem_reverse.mp hx))]
    rw [List.singleton_append, fill_first_unmatched, if_pos ⟨hname, hout⟩]
    rw [List.reverse_append, List.reverse_cons, List.reverse_reverse,
      List.reverse_reverse]
    simp
  · intro name out recs h
    rw [update_last_unmatched,
      fill_first_id name out recs.reverse (fun x hx => h x (List.mem_reverse.mp hx)),
      List.reverse_reverse]

/-- Witness for C8's pairing clauses at a concrete record list: the tool-end
fills the second (most recent, unmatched) record of `recs_w`. -/
theorem collection_mode_pairing_witness :
    update_last_unmatched "get_portfolio_holdings" "out1" recs_w =
      [⟨"get_portfolio_holdings", "date=2026-10-10", some "out0"⟩,
       ⟨"get_portfolio_holdings", "date=2026-10-12", some "out1"⟩] := by
  have h := (collection_mode_pairing []).2.2.1 "get_portfolio_holdings" "out1"
    [⟨"get_portfolio_holdings", "date=2026-10-10", some "out0"⟩]
    ⟨"get_portfolio_holdings", "date=2026-10-12", none⟩ [] rfl rfl
    (by intro x hx; cases hx)
  simpa [recs_w] using h
